import Mathlib

/-!
# Verification of the backathon object-graph core

A shallow embedding of the scan engine (`backathon/models.py`, `FSEntry.scan`),
the backup engine (`backathon/backup.py`) and the garbage collector
(`Object.collect_garbage`), together with theorems checking the stated
properties of the system against this embedding.

Conventions used throughout:

* Byte strings (object ids, payload bytes, raw file names) are `List Nat`.
* Python `int` values are `Nat` where the source guarantees non-negativity.
* msgpack values produced by `umsgpack.pack`/`unpack` are modelled by the
  inductive type `MsgVal`; a payload is the stream of msgpack values it
  contains (`List MsgVal`), which is exactly what `Object.unpack_payload`
  yields from the byte buffer.
* Database rows are records, tables are `List`s of rows, and the raw SQL
  (the recursive ancestor/reachability queries, cascading deletes) is
  embedded as functions over those lists.
* Runtime inputs that the code obtains from the OS (`os.lstat`,
  `os.listdir`, reading an open file) are passed in as parameters:
  `Option`/`Except` values model the exception branches the source handles.
-/

namespace Backathon

/-! ## Garbage collector (`Object.collect_garbage`, models.py lines 154-238)

The Bloom-filter sweep.  The source computes
`objid_int = int.from_bytes(row[0], 'little')`, then for each of the `k`
random salts `h` sets (first pass) or tests (second pass) the bit at
position `(h ^ objid_int) % m` of a bytearray of `ceil(m / 8)` bytes.

The filter size `m` and the list of random 256-bit salts are parameters of
the embedding: in the source `m` is produced by floating-point arithmetic
from `num_objects` and the salts come from `random.SystemRandom`, both of
which are environment inputs as far as the algorithm's correctness is
concerned.  The division by `num_objects` in the computation of `k`
(`k = int(round(math.log(2) * m / num_objects))`) raises `ZeroDivisionError`
when the Object table is empty; the embedding keeps that guard.
-/

/-- `int.from_bytes(bs, 'little')`. -/
def intFromBytesLE (bs : List Nat) : Nat :=
  bs.foldr (fun b acc => b + 256 * acc) 0

/-- `arr_size = int(math.ceil(m/8))`: size in bytes of the Bloom bit array. -/
def arrSize (m : Nat) : Nat := (m + 7) / 8

/-- The bit position used by both passes: `h ^= objid; h %= m`. -/
def bloomPos (m h objid : Nat) : Nat := (h ^^^ objid) % m

/-- First pass body: `bloom[bytepos] |= 1 << bitpos` where
`bytepos, bitpos = divmod(pos, 8)`. -/
def setBloomBit (bloom : List Nat) (pos : Nat) : List Nat :=
  bloom.set (pos / 8) (bloom.getD (pos / 8) 0 ||| (1 <<< (pos % 8)))

/-- Second pass test: `bloom[bytepos] & (1 << bitpos)` (truthy iff nonzero). -/
def testBloomBit (bloom : List Nat) (pos : Nat) : Bool :=
  (bloom.getD (pos / 8) 0) &&& (1 <<< (pos % 8)) != 0

/-- Inner loop of the first pass: set the bit for every salt `h`. -/
def setObjBits (m : Nat) (hashes : List Nat) (objid : Nat) (bloom : List Nat) :
    List Nat :=
  hashes.foldl (fun b h => setBloomBit b (bloomPos m h objid)) bloom

/-- First pass: iterate over the rows returned by the recursive reachability
query and set the `k` bits of each. -/
def markReachable (m : Nat) (hashes : List Nat) (reached : List (List Nat))
    (bloom : List Nat) : List Nat :=
  reached.foldl (fun b row => setObjBits m hashes (intFromBytesLE row) b) bloom

/-- `hash_match(h, objid)` from the source. -/
def hash_match (m : Nat) (bloom : List Nat) (h objid : Nat) : Bool :=
  testBloomBit bloom (bloomPos m h objid)

inductive GcErr
  | zeroDivisionError
deriving DecidableEq

/-- `Object.collect_garbage`: count the table, (compute the Bloom
parameters, raising `ZeroDivisionError` on an empty table), mark every
object reachable from the snapshot roots, then yield every object of the
table whose `k` bits are not all set.  `objTable` is the list of `objid`
column values of the `objects` table and `reached` is the row stream
produced by the recursive reachability query. -/
def collect_garbage (m : Nat) (hashes : List Nat)
    (objTable reached : List (List Nat)) : Except GcErr (List (List Nat)) :=
  if objTable.length = 0 then
    -- `k = int(round(math.log(2) * m / num_objects))` divides by zero
    .error .zeroDivisionError
  else
    .ok (objTable.filter
      (fun oid => !(hashes.all (fun h =>
        hash_match m
          (markReachable m hashes reached (List.replicate (arrSize m) 0))
          h (intFromBytesLE oid)))))

/-- Reachability along the recursive SQL query of `collect_garbage`:
seeded from `Snapshot.root` rows, extended over `object_relations`
parent-to-child edges. -/
inductive Reachable (roots : List (List Nat)) (edges : List (List Nat × List Nat)) :
    List Nat → Prop
  | root {x} : x ∈ roots → Reachable roots edges x
  | child {p c} : Reachable roots edges p → (p, c) ∈ edges → Reachable roots edges c

/-! ## Filesystem shadow tree (`FSEntry`, models.py lines 287-493)

Rows of the `fsentry` table.  Paths are modelled as component lists
(`PathField` stores the absolute path; `FSEntry.name` is its basename,
i.e. the last component).  `obj` holds the objid of the last backup of the
entry (`null` means dirty), `parent` the id of the parent row. -/

structure StatResult where
  st_mode : Nat
  st_ino : Nat
  st_uid : Nat
  st_gid : Nat
  st_size : Nat
  st_mtime_ns : Nat
  st_atime_ns : Nat
deriving DecidableEq, Repr

structure FSEntryRow where
  id : Nat
  path : List String
  parent : Option Nat
  obj : Option (List Nat)
  new : Bool
  st_mode : Option Nat
  st_mtime_ns : Option Nat
  st_size : Option Nat
deriving DecidableEq, Repr

/-- `stat.S_IFMT`: the file-type bits of `st_mode`. -/
def S_IFMT : Nat := 0o170000

/-- `stat.S_ISDIR(mode)`. -/
def S_ISDIR (mode : Nat) : Bool := mode &&& S_IFMT == 0o040000

/-- `stat.S_ISREG(mode)`. -/
def S_ISREG (mode : Nat) : Bool := mode &&& S_IFMT == 0o100000

/-- `FSEntry.name`: `os.path.basename(self.path)`. -/
def FSEntryRow.name (e : FSEntryRow) : String := e.path.getLastD ""

/-- `FSEntry.update_stat_info`. -/
def update_stat_info (e : FSEntryRow) (st : StatResult) : FSEntryRow :=
  { e with
    st_mode := some st.st_mode
    st_mtime_ns := some st.st_mtime_ns
    st_size := some st.st_size }

/-- `FSEntry.compare_stat_info` (Python `None == int` is `False`, which the
`Option` equality mirrors). -/
def compare_stat_info (e : FSEntryRow) (st : StatResult) : Bool :=
  e.st_mode == some st.st_mode &&
  e.st_mtime_ns == some st.st_mtime_ns &&
  e.st_size == some st.st_size

/-- Fetch a row by primary key. -/
def lookupRow (t : List FSEntryRow) (i : Nat) : Option FSEntryRow :=
  t.find? (fun r => r.id == i)

/-- The id set computed by the recursive `ancestors` query of
`FSEntry.invalidate`: the entry itself plus all its `parent`-chain
ancestors.  Embedded with fuel; the chain of a forest-shaped table of `n`
rows is complete at fuel `n + 1`. -/
def parentChain (t : List FSEntryRow) : Nat → Nat → List Nat
  | 0, _ => []
  | fuel + 1, i =>
    i :: (match lookupRow t i with
      | some r =>
        (match r.parent with
          | some p => parentChain t fuel p
          | none => [])
      | none => [])

/-- `FSEntry.invalidate`: `UPDATE fsentry SET obj_id=NULL WHERE id IN
ancestors`. -/
def invalidate (t : List FSEntryRow) (i : Nat) : List FSEntryRow :=
  t.map (fun r =>
    if (parentChain t (t.length + 1) i).contains r.id then { r with obj := none }
    else r)

/-- Deleting one `fsentry` row: the table is created with
`ON DELETE CASCADE` on the `parent` foreign key, so the database also
removes every row whose ancestor chain passes through the deleted id. -/
def cascadeDelete (t : List FSEntryRow) (did : Nat) : List FSEntryRow :=
  t.filter (fun r => !((parentChain t (t.length + 1) r.id).contains did))

/-- `self.children.all().delete()`: delete every direct child row (each
cascading to its own descendants). -/
def deleteChildren (t : List FSEntryRow) (i : Nat) : List FSEntryRow :=
  ((t.filter (fun r => r.parent == some i)).map (fun r => r.id)).foldl cascadeDelete t

/-- `self.save()`: write the updated row back. -/
def saveRow (t : List FSEntryRow) (i : Nat) (e : FSEntryRow) : List FSEntryRow :=
  t.map (fun r => if r.id == i then e else r)

inductive ScanErr
  | assertionError
deriving DecidableEq

/-- The create-new-entries loop of `FSEntry.scan`: for each listed name not
already a child, insert a row with `new = True`; a unique-path violation
(`IntegrityError`) reparents the existing row, which must be a root
(`assert newentry.parent_id is None`). -/
def scanCreateNew (e : FSEntryRow) : List String → List FSEntryRow → Nat →
    Except ScanErr (List FSEntryRow × Nat)
  | [], t, nid => .ok (t, nid)
  | n :: rest, t, nid =>
    match t.find? (fun r => r.path == e.path ++ [n]) with
    | none =>
        scanCreateNew e rest
          (t ++ [{ id := nid, path := e.path ++ [n], parent := some e.id,
                   obj := none, new := true, st_mode := none,
                   st_mtime_ns := none, st_size := none }]) (nid + 1)
    | some r =>
        if r.parent == none then
          scanCreateNew e rest
            (t.map (fun x => if x.id == r.id then { x with parent := some e.id } else x))
            nid
        else .error .assertionError

/-- The delete-old-entries loop of `FSEntry.scan`: every previously
recorded child whose name is not in the directory listing is deleted. -/
def scanDeleteOld (entries : List String) (children : List FSEntryRow)
    (t : List FSEntryRow) : List FSEntryRow :=
  children.foldl
    (fun acc c => if entries.contains c.name then acc else cascadeDelete acc c.id) t

/-- `FSEntry.scan`.  Parameters beyond the table and the entry id:
`nid` is the next free primary key for inserted rows, `lstat` is the
`os.lstat` outcome (`none` = `FileNotFoundError`/`NotADirectoryError`),
`listdir` is the `os.listdir` outcome (`.error ()` = `PermissionError`,
treated as an empty listing). -/
def fsentry_scan (t : List FSEntryRow) (nid eid : Nat) (lstat : Option StatResult)
    (listdir : Except Unit (List String)) : Except ScanErr (List FSEntryRow) :=
  match lookupRow t eid with
  | none => .ok t
  | some e =>
    match lstat with
    | none =>
        -- "Not found, deleting"
        .ok (cascadeDelete t eid)
    | some st =>
      -- "No longer a directory": entry changed from directory to another type
      let t1 := if (match e.st_mode with
          | some mo => S_ISDIR mo && !(S_ISDIR st.st_mode)
          | none => false)
        then deleteChildren t eid else t
      if !e.new && compare_stat_info e st then
        -- "No change"
        .ok t1
      else
        let e' := { update_stat_info e st with obj := none, new := false }
        if S_ISDIR st.st_mode then
          let children := t1.filter (fun r => r.parent == some eid)
          let entries := match listdir with
            | .ok l => l
            | .error _ => []
          match scanCreateNew e'
              (entries.filter (fun n => !(children.any (fun c => c.name == n))))
              t1 nid with
          | .error err => .error err
          | .ok (t2, _) =>
              .ok (invalidate (saveRow (scanDeleteOld entries children t2) eid e') eid)
        else
          .ok (invalidate (saveRow t1 eid e') eid)

/-! ## Payloads (`umsgpack` values) and `Object.calculate_children`

A payload is modelled as the stream of msgpack values it contains, which
is exactly what `Object.unpack_payload` yields from the byte buffer.
Python tuples are packed as msgpack arrays and unpacked as lists, so both
appear as `MsgVal.arr`. -/

inductive MsgVal
  | str : String → MsgVal
  | bytes : List Nat → MsgVal
  | int : Nat → MsgVal
  | arr : List MsgVal → MsgVal
  | map : List (MsgVal × MsgVal) → MsgVal

inductive PyErr
  | typeError
  | indexError
  | keyError
  | stopIteration
deriving DecidableEq

/-- Python subscription `v[i]` for the value forms that occur in payload
streams: lists index, bytes yield the byte as an int, strings yield a
1-character string; an `int` is not subscriptable (`TypeError`).
Subscripting a dict with an int raises `KeyError` unless the key is
present; no payload produced by the backup engine stores a dict where
`calculate_children` subscripts, so that lookup is collapsed to the
error. -/
def pyGetItem : MsgVal → Nat → Except PyErr MsgVal
  | .arr l, i =>
    (match l.get? i with
      | some v => .ok v
      | none => .error .indexError)
  | .bytes bs, i =>
    (match bs.get? i with
      | some b => .ok (.int b)
      | none => .error .indexError)
  | .str s, i =>
    (match s.toList.get? i with
      | some c => .ok (.str c.toString)
      | none => .error .indexError)
  | .int _, _ => .error .typeError
  | .map _, _ => .error .keyError

/-- Python iteration `for c in v`: lists yield elements, bytes yield ints,
strings yield 1-character strings, dicts yield keys; an int is not
iterable. -/
def pyIter : MsgVal → Except PyErr (List MsgVal)
  | .arr l => .ok l
  | .bytes bs => .ok (bs.map (fun b => .int b))
  | .str s => .ok (s.toList.map (fun c => .str c.toString))
  | .map l => .ok (l.map (fun kv => kv.1))
  | .int _ => .error .typeError

/-- Python `v == "lit"`: true only for an equal string (any non-string
value compares unequal). -/
def isStrEq : MsgVal → String → Bool
  | .str s, t => s == t
  | _, _ => false

/-- `Object.calculate_children` (models.py lines 93-134): re-derive the
child objid list from the cached payload stream.  `next()` on an
exhausted stream raises `StopIteration`, which propagates out. -/
def calculate_children (payload : List MsgVal) : Except PyErr (List MsgVal) :=
  match payload with
  | [] => .ok []  -- `if not self.payload: return []`
  | objtype :: rest =>
    if isStrEq objtype "tree" then
      match rest with
      | _ :: item :: _ => do
          let items ← pyIter item
          items.mapM (fun c => pyGetItem c 1)
      | _ => .error .stopIteration
    else if isStrEq objtype "inode" then
      match rest with
      | _ :: item :: _ => do
          let inner ← pyGetItem item 1
          let items ← pyIter inner
          items.mapM (fun c => pyGetItem c 1)
      | _ => .error .stopIteration
    else .ok []

/-! ## Backup engine (`backathon/backup.py`) -/

/-- The inode metadata record packed by `backup_iterator` (dict insertion
order: size, inode, uid, gid, mode, mtime, atime; timestamps are the
nanosecond stat fields). -/
def inodeInfo (st : StatResult) : MsgVal :=
  .map [(.str "size", .int st.st_size), (.str "inode", .int st.st_ino),
        (.str "uid", .int st.st_uid), (.str "gid", .int st.st_gid),
        (.str "mode", .int st.st_mode), (.str "mtime", .int st.st_mtime_ns),
        (.str "atime", .int st.st_atime_ns)]

/-- The tree metadata record (uid, gid, mode, mtime, atime). -/
def treeInfo (st : StatResult) : MsgVal :=
  .map [(.str "uid", .int st.st_uid), (.str "gid", .int st.st_gid),
        (.str "mode", .int st.st_mode), (.str "mtime", .int st.st_mtime_ns),
        (.str "atime", .int st.st_atime_ns)]

/-- `os.fsencode` of a file name (its UTF-8 bytes). -/
def fsencode (s : String) : List Nat :=
  s.toUTF8.toList.map (fun b => b.toNat)

/-- A blob payload: the `"blob"` tag, then the chunk bytes. -/
def blobPayload (chunk : List Nat) : List MsgVal :=
  [.str "blob", .bytes chunk]

/-- An inode payload: tag, metadata record, then the contents record
(either `("immediate", bytes)` or `("chunklist", …)`). -/
def inodePayload (st : StatResult) (contents : MsgVal) : List MsgVal :=
  [.str "inode", inodeInfo st, contents]

/-- A tree payload: tag, metadata record, then the
`[(raw_name_bytes, child_objid), …]` list. -/
def treePayload (st : StatResult) (entries : List MsgVal) : List MsgVal :=
  [.str "tree", treeInfo st, .arr entries]

/-- Modelled from the spec: `chunker.FixedChunker` — the module
`backathon/chunker.py` is not part of this snapshot.  Spec section 4.B:
the fixed-size chunker produces `(offset, bytes)` pairs by reading the
stream in fixed-size windows; it is a lazy finite sequence and the final
chunk may be short.  `fixedChunkerGo` is the reading loop, driven by a
fuel bounded below by the number of reads. -/
def fixedChunkerGo (cs : Nat) : Nat → Nat → List Nat → List (Nat × List Nat)
  | 0, _, _ => []
  | _ + 1, _, [] => []
  | fuel + 1, ofs, b :: rest =>
    (ofs, (b :: rest).take cs) ::
      fixedChunkerGo cs fuel (ofs + cs) ((b :: rest).drop cs)

/-- Modelled from the spec: the chunker applied to a whole byte string
(see `fixedChunkerGo`). -/
def FixedChunker (cs : Nat) (b : List Nat) : List (Nat × List Nat) :=
  fixedChunkerGo cs (b.length + 1) 0 b

/-- The default of the `inline_threshold` keyword of `backup_iterator`:
`2 ** 21` bytes (2 MiB). -/
def inline_threshold_default : Nat := 2 ^ 21

inductive GenErr
  | dependencyError
deriving DecidableEq

inductive ReadErr
  | fileNotFound  -- `FileNotFoundError` while opening or reading
  | osError       -- other `OSError`, e.g. permission denied
deriving DecidableEq

/-- The chunk list accumulated while chunking a large file: every chunk
is yielded as a blob object and `(pos, chunk_obj.objid)` recorded, where
the admitted objid is the content address `push` of the blob payload. -/
def chunkList (push : List MsgVal → List Nat) (cs : Nat) (b : List Nat) :
    List (Nat × List Nat) :=
  (FixedChunker cs b).map (fun pc => (pc.1, push (blobPayload pc.2)))

/-- The inode payload of a chunked file:
`("chunklist", [(offset, child_objid), …])`. -/
def chunkedInodePayload (push : List MsgVal → List Nat) (cs : Nat)
    (st : StatResult) (b : List Nat) : List MsgVal :=
  inodePayload st (.arr [.str "chunklist",
    .arr ((chunkList push cs b).map (fun po => .arr [.int po.1, .bytes po.2]))])

/-- `backup_iterator` (backup.py lines 152-367) driven to completion by
the send-loop of `backup_entry`: every yielded payload is admitted by the
caller (`repo.push_object`, the content-address function `push`) and the
admitted object sent back in.  Environment inputs: `lstat` (`none` models
`FileNotFoundError`/`NotADirectoryError`) and `read` (the contents of the
opened file, or the exception raised opening/reading it).  `children` are
the rows of `fsentry.children.all()` with `obj` prefetched.  Returns the
final state of the entry (`none` when it was deleted, `some` of the saved
row otherwise) and the ordered `(payload, Object.type)` yields. -/
def backup_iterator (push : List MsgVal → List Nat) (thr cs : Nat)
    (lstat : Option StatResult) (read : Except ReadErr (List Nat))
    (e : FSEntryRow) (children : List FSEntryRow) :
    Except GenErr (Option FSEntryRow × List (List MsgVal × String)) :=
  match lstat with
  | none => .ok (none, [])  -- "File disappeared": fsentry.delete()
  | some st =>
    if S_ISREG st.st_mode then
      match read with
      | .error _ => .ok (none, [])  -- FileNotFoundError / OSError: delete
      | .ok b =>
        if st.st_size < thr then
          .ok (some { update_stat_info e st with
                obj := some (push (inodePayload st
                  (.arr [.str "immediate", .bytes b]))) },
            [(inodePayload st (.arr [.str "immediate", .bytes b]), "inode")])
        else
          .ok (some { update_stat_info e st with
                obj := some (push (chunkedInodePayload push cs st b)) },
            (FixedChunker cs b).map (fun pc => (blobPayload pc.2, "blob")) ++
              [(chunkedInodePayload push cs st b, "inode")])
    else if S_ISDIR st.st_mode then
      if children.any (fun c => c.obj == none) then
        .error .dependencyError
      else
        .ok (some { update_stat_info e st with
              obj := some (push (treePayload st (children.map (fun c =>
                MsgVal.arr [.bytes (fsencode c.name),
                  .bytes (c.obj.getD [])])))) },
          [(treePayload st (children.map (fun c =>
            MsgVal.arr [.bytes (fsencode c.name), .bytes (c.obj.getD [])])),
            "tree")])
    else
      .ok (none, [])  -- "Unknown file type": fsentry.delete()

inductive EntryErr
  | dependencyError
  | assertionError
deriving DecidableEq

/-- `backup_entry` (backup.py lines 132-149): drive the generator, then
`assert entry.obj_id is not None or entry.id is None`. -/
def backup_entry (push : List MsgVal → List Nat) (thr cs : Nat)
    (lstat : Option StatResult) (read : Except ReadErr (List Nat))
    (e : FSEntryRow) (children : List FSEntryRow) :
    Except EntryErr (Option FSEntryRow × List (List MsgVal × String)) :=
  match backup_iterator push thr cs lstat read e children with
  | .error .dependencyError => .error .dependencyError
  | .ok (st?, ys) =>
    match st? with
    | none => .ok (none, ys)
    | some e' =>
        if e'.obj.isSome then .ok (some e', ys) else .error .assertionError

/-- Environment of a backup run: each entry's `os.lstat` and file-read
outcome, addressed by entry id. -/
structure FsView where
  lstat : Nat → Option StatResult
  read : Nat → Except ReadErr (List Nat)

inductive LoopErr
  | dependencyError
  | assertionError  -- an entry exit-contract or root-obj assert
  | progressAssert  -- `assert ct > 0`
  | fuelExhausted   -- embedding artifact standing for the unbounded while
deriving DecidableEq

inductive BackupErr
  | scanNotRun      -- RuntimeError("You need to run a scan first")
  | loopErr (e : LoopErr)
deriving DecidableEq

/-- Run `backup_entry` for one streamed row and apply its effect to the
table: delete the row (cascading) or save the updated one. -/
def applyBackupEntry (push : List MsgVal → List Nat) (thr cs : Nat)
    (fs : FsView) (t : List FSEntryRow) (eid : Nat) :
    Except LoopErr (List FSEntryRow) :=
  match lookupRow t eid with
  | none => .ok t
  | some e =>
    match backup_entry push thr cs (fs.lstat eid) (fs.read eid) e
        (t.filter (fun r => r.parent == some eid)) with
    | .error .dependencyError => .error .dependencyError
    | .error .assertionError => .error .assertionError
    | .ok (none, _) => .ok (cascadeDelete t eid)
    | .ok (some e', _) => .ok (saveRow t eid e')

/-- The outer loop of `backup`: while dirty entries remain, stream the
ready set (dirty entries none of whose children are dirty; the
`ready_to_backup` queryset) and back each up; `assert ct > 0` aborts an
iteration that selected nothing. -/
def backupLoop (push : List MsgVal → List Nat) (thr cs : Nat) (fs : FsView) :
    Nat → List FSEntryRow → Except LoopErr (List FSEntryRow)
  | 0, _ => .error .fuelExhausted
  | fuel + 1, t =>
    if (t.filter (fun e => e.obj == none)).isEmpty then .ok t
    else
      if ((t.filter (fun e => e.obj == none)).filter
          (fun e => !((t.filter (fun e => e.obj == none)).any
            (fun c => c.parent == some e.id)))).isEmpty then
        .error .progressAssert
      else
        match ((t.filter (fun e => e.obj == none)).filter
            (fun e => !((t.filter (fun e => e.obj == none)).any
              (fun c => c.parent == some e.id)))).foldlM
            (fun acc e => applyBackupEntry push thr cs fs acc e.id) t with
        | .error err => .error err
        | .ok t' => backupLoop push thr cs fs fuel t'

/-- One row of the `snapshots` table as created by `backup`. -/
structure SnapshotRow where
  path : List String
  root : List Nat
deriving DecidableEq, Repr

/-- `backup` (backup.py lines 21-130): raise
`RuntimeError("You need to run a scan first")` if any FSEntry has
`new=True`; otherwise run the backup loop and then create one Snapshot
per root, asserting each root's `obj` is set. -/
def backup (push : List MsgVal → List Nat) (thr cs : Nat) (fs : FsView)
    (fuel : Nat) (t : List FSEntryRow) :
    Except BackupErr (List FSEntryRow × List SnapshotRow) :=
  if t.any (fun e => e.new) then
    .error .scanNotRun
  else
    match backupLoop push thr cs fs fuel t with
    | .error err => .error (.loopErr err)
    | .ok t' =>
      match (t'.filter (fun r => r.parent == none)).mapM
          (fun r => match r.obj with
            | some o => Except.ok ({ path := r.path, root := o } : SnapshotRow)
            | none => Except.error LoopErr.assertionError) with
      | .error err => .error (.loopErr err)
      | .ok snaps => .ok (t', snaps)

/-! ## Snapshot root protection (models.py lines 495-507)

`Snapshot.root` is a foreign key declared `on_delete=models.PROTECT`,
while `ObjectRelation.parent`/`.child` are `CASCADE`.  `delete_object`
embeds those declared on-delete policies of the metadata store for the
deletion of one `objects` row: if any snapshot row has the object as its
root the delete is refused (Django `ProtectedError`), otherwise the row
and its relation edges are removed. -/

structure GcDb where
  objects : List (List Nat)
  relations : List (List Nat × List Nat)
  snapshotRoots : List (List Nat)
deriving DecidableEq, Repr

inductive DeleteErr
  | protectedError
deriving DecidableEq

def delete_object (db : GcDb) (oid : List Nat) : Except DeleteErr GcDb :=
  if db.snapshotRoots.any (fun r => r == oid) then
    .error .protectedError
  else
    .ok { objects := db.objects.filter (fun o => !(o == oid)),
          relations := db.relations.filter
            (fun pc => !(pc.1 == oid) && !(pc.2 == oid)),
          snapshotRoots := db.snapshotRoots }

instance {ε α : Type} [DecidableEq ε] [DecidableEq α] :
    DecidableEq (Except ε α) := fun a b =>
  match a, b with
  | .error x, .error y =>
      if h : x = y then .isTrue (by rw [h])
      else .isFalse (by intro hc; cases hc; exact h rfl)
  | .error _, .ok _ => .isFalse (by intro hc; cases hc)
  | .ok _, .error _ => .isFalse (by intro hc; cases hc)
  | .ok x, .ok y =>
      if h : x = y then .isTrue (by rw [h])
      else .isFalse (by intro hc; cases hc; exact h rfl)

/-! ## Concrete data used by witnesses and counterexamples -/

/-- A clean `FSEntry` row: `new` is false and the stat fields below match
`cleanStat` (mode `33188 = 0o100644`, a regular file). -/
def cleanRow : FSEntryRow :=
  { id := 1, path := ["r", "a"], parent := none, obj := some [9],
    new := false, st_mode := some 33188, st_mtime_ns := some 5,
    st_size := some 3 }

/-- The matching `os.lstat` result for `cleanRow`. -/
def cleanStat : StatResult :=
  { st_mode := 33188, st_ino := 7, st_uid := 0, st_gid := 0,
    st_size := 3, st_mtime_ns := 5, st_atime_ns := 6 }

/-- Root directory row above `dirtyChildRow`. -/
def dirtyRootRow : FSEntryRow :=
  { id := 1, path := ["r"], parent := none, obj := some [8],
    new := false, st_mode := some 16877, st_mtime_ns := some 1,
    st_size := some 0 }

/-- A regular-file child row whose stored stat info will not match
`changedStat` (its size and mtime changed on disk). -/
def dirtyChildRow : FSEntryRow :=
  { id := 2, path := ["r", "a"], parent := some 1, obj := some [7],
    new := false, st_mode := some 33188, st_mtime_ns := some 5,
    st_size := some 3 }

/-- The changed `os.lstat` result for `dirtyChildRow`. -/
def changedStat : StatResult :=
  { st_mode := 33188, st_ino := 7, st_uid := 0, st_gid := 0,
    st_size := 4, st_mtime_ns := 9, st_atime_ns := 6 }

/-- The table produced by scanning `dirtyChildRow` against `changedStat`:
the child is updated and both it and its root are dirtied. -/
def scanDirtyResult : List FSEntryRow :=
  [{ dirtyRootRow with obj := none },
   { id := 2, path := ["r", "a"], parent := some 1, obj := none,
     new := false, st_mode := some 33188, st_mtime_ns := some 9,
     st_size := some 4 }]

/-- A never-scanned directory row (mode `16877 = 0o40755`). -/
def permDirRow : FSEntryRow :=
  { id := 1, path := ["r"], parent := none, obj := some [8],
    new := true, st_mode := none, st_mtime_ns := none, st_size := none }

/-- A previously recorded child of `permDirRow`. -/
def permChildRow : FSEntryRow :=
  { id := 2, path := ["r", "a"], parent := some 1, obj := some [7],
    new := false, st_mode := some 33188, st_mtime_ns := some 5,
    st_size := some 3 }

/-- The `os.lstat` result for `permDirRow` (a directory). -/
def permDirStat : StatResult :=
  { st_mode := 16877, st_ino := 2, st_uid := 0, st_gid := 0,
    st_size := 0, st_mtime_ns := 1, st_atime_ns := 1 }

/-- The table left by scanning `permDirRow` when `os.listdir` raises
`PermissionError`: the child row is gone. -/
def permScanResult : List FSEntryRow :=
  [{ id := 1, path := ["r"], parent := none, obj := none, new := false,
     st_mode := some 16877, st_mtime_ns := some 1, st_size := some 0 }]

/-- The content-address function used by concrete witnesses: every
payload maps to objid `[0]`. -/
def push0 : List MsgVal → List Nat := fun _ => [0]

/-- Stat of a 5-byte regular file used by the chunking witness. -/
def chunkStat : StatResult :=
  { st_mode := 33188, st_ino := 7, st_uid := 0, st_gid := 0,
    st_size := 5, st_mtime_ns := 5, st_atime_ns := 6 }

/-- A trivial filesystem environment: every entry stats as `cleanStat`
and reads one byte. -/
def trivialFs : FsView :=
  { lstat := fun _ => some cleanStat, read := fun _ => .ok [120] }

/-! ### Bloom-filter lemmas -/

theorem length_setBloomBit (bloom : List Nat) (pos : Nat) :
    (setBloomBit bloom pos).length = bloom.length := by
  simp [setBloomBit]

theorem testBloomBit_eq_testBit (bloom : List Nat) (pos : Nat) :
    testBloomBit bloom pos = (bloom.getD (pos / 8) 0).testBit (pos % 8) := by
  simp only [testBloomBit, Nat.one_shiftLeft, Nat.and_two_pow]
  cases h : (bloom.getD (pos / 8) 0).testBit (pos % 8) with
  | false => simp
  | true => simp [(Nat.two_pow_pos (pos % 8)).ne']

theorem bytepos_lt (m pos : Nat) (hpos : pos < m) :
    pos / 8 < arrSize m := by
  unfold arrSize
  omega

theorem testBloomBit_setBloomBit_self (bloom : List Nat) (pos : Nat)
    (h : pos / 8 < bloom.length) :
    testBloomBit (setBloomBit bloom pos) pos = true := by
  rw [testBloomBit_eq_testBit]
  unfold setBloomBit
  rw [List.getD_eq_getElem?_getD, List.getElem?_set_self h, Option.getD_some,
    Nat.testBit_or, Nat.one_shiftLeft, Nat.testBit_two_pow_self, Bool.or_true]

theorem testBloomBit_setBloomBit_mono (bloom : List Nat) (pos pos' : Nat)
    (h : testBloomBit bloom pos = true) :
    testBloomBit (setBloomBit bloom pos') pos = true := by
  rw [testBloomBit_eq_testBit] at h ⊢
  unfold setBloomBit
  rw [List.getD_eq_getElem?_getD] at h ⊢
  rcases eq_or_ne (pos' / 8) (pos / 8) with heq | hne
  · rw [heq]
    cases hx : bloom[pos / 8]? with
    | none =>
        rw [hx] at h
        simp at h
    | some x =>
        have hlt : pos / 8 < bloom.length := (List.getElem?_eq_some_iff.mp hx).1
        rw [hx, Option.getD_some] at h
        rw [List.getElem?_set_self hlt, Option.getD_some, Nat.testBit_or,
          List.getD_eq_getElem?_getD, hx, Option.getD_some, h, Bool.true_or]
  · rw [List.getElem?_set_ne hne]
    exact h

theorem length_setObjBits (m : Nat) (hashes : List Nat) (objid : Nat)
    (bloom : List Nat) :
    (setObjBits m hashes objid bloom).length = bloom.length := by
  induction hashes generalizing bloom with
  | nil => rfl
  | cons h t ih => simp [setObjBits] at ih ⊢; rw [ih, length_setBloomBit]

theorem testBloomBit_setObjBits_mono (m : Nat) (hashes : List Nat) (objid : Nat)
    (bloom : List Nat) (pos : Nat) (h : testBloomBit bloom pos = true) :
    testBloomBit (setObjBits m hashes objid bloom) pos = true := by
  induction hashes generalizing bloom with
  | nil => exact h
  | cons hd t ih =>
      simp only [setObjBits, List.foldl_cons] at ih ⊢
      exact ih _ (testBloomBit_setBloomBit_mono _ _ _ h)

theorem testBloomBit_setObjBits_self (m : Nat) (hashes : List Nat) (objid : Nat)
    (bloom : List Nat) (hm : 0 < m) (hlen : bloom.length = arrSize m)
    (h : Nat) (hh : h ∈ hashes) :
    testBloomBit (setObjBits m hashes objid bloom) (bloomPos m h objid) = true := by
  induction hashes generalizing bloom with
  | nil => cases hh
  | cons hd t ih =>
      simp only [setObjBits, List.foldl_cons] at ih ⊢
      rcases List.mem_cons.mp hh with rfl | hmem
      · apply testBloomBit_setObjBits_mono
        apply testBloomBit_setBloomBit_self
        rw [hlen]
        exact bytepos_lt m _ (Nat.mod_lt _ hm)
      · exact ih _ (by rw [length_setBloomBit]; exact hlen) hmem

theorem length_markReachable (m : Nat) (hashes : List Nat)
    (reached : List (List Nat)) (bloom : List Nat) :
    (markReachable m hashes reached bloom).length = bloom.length := by
  induction reached generalizing bloom with
  | nil => rfl
  | cons r t ih =>
      simp only [markReachable, List.foldl_cons] at ih ⊢
      rw [ih, length_setObjBits]

theorem testBloomBit_markReachable_mono (m : Nat) (hashes : List Nat)
    (reached : List (List Nat)) (bloom : List Nat) (pos : Nat)
    (h : testBloomBit bloom pos = true) :
    testBloomBit (markReachable m hashes reached bloom) pos = true := by
  induction reached generalizing bloom with
  | nil => exact h
  | cons r t ih =>
      simp only [markReachable, List.foldl_cons] at ih ⊢
      exact ih _ (testBloomBit_setObjBits_mono _ _ _ _ _ h)

theorem testBloomBit_markReachable_of_mem (m : Nat) (hashes : List Nat)
    (reached : List (List Nat)) (bloom : List Nat) (oid : List Nat)
    (hm : 0 < m) (hlen : bloom.length = arrSize m) (hmem : oid ∈ reached)
    (h : Nat) (hh : h ∈ hashes) :
    testBloomBit (markReachable m hashes reached bloom)
      (bloomPos m h (intFromBytesLE oid)) = true := by
  induction reached generalizing bloom with
  | nil => cases hmem
  | cons r t ih =>
      simp only [markReachable, List.foldl_cons] at ih ⊢
      rcases List.mem_cons.mp hmem with rfl | hmem'
      · exact testBloomBit_markReachable_mono m hashes t _ _
          (testBloomBit_setObjBits_self m hashes _ bloom hm hlen h hh)
      · exact ih _ (by rw [length_setObjBits]; exact hlen) hmem'

/-- C1 (GC soundness): whenever `collect_garbage` runs to completion, it
never yields an object whose id is reachable from some `Snapshot.root` by
following `object_relations` parent-to-child edges: the bit positions
`(salt XOR objid) mod m` set during the reachability pass are exactly the
positions tested in the sweep pass, so every reachable object passes the
Bloom test.  `hquery` states that the recursive SQL query streams (at
least) every reachable row. -/
theorem gc_soundness
    (roots : List (List Nat)) (edges : List (List Nat × List Nat))
    (m : Nat) (hashes : List Nat) (objTable reached out : List (List Nat))
    (oid : List Nat) (hm : 0 < m)
    (hquery : ∀ x, Reachable roots edges x → x ∈ reached)
    (hreach : Reachable roots edges oid)
    (hout : collect_garbage m hashes objTable reached = .ok out) :
    oid ∉ out := by
  unfold collect_garbage at hout
  split at hout
  · exact absurd hout (by simp)
  · simp only [Except.ok.injEq] at hout
    subst hout
    intro hmem
    rw [List.mem_filter] at hmem
    obtain ⟨-, hp⟩ := hmem
    rw [Bool.not_eq_true', List.all_eq_false] at hp
    obtain ⟨h, hh, hfalse⟩ := hp
    have := testBloomBit_markReachable_of_mem m hashes reached
      (List.replicate (arrSize m) 0) oid hm (by simp) (hquery oid hreach) h hh
    rw [hash_match, this] at hfalse
    exact hfalse rfl

/-- Witness for C1: a three-object table with root `[1]`, edge
`[1] → [2]`; the unreachable `[3]` is yielded, and the theorem shows the
reachable `[2]` is not. -/
theorem gc_soundness_witness :
    (0 < 8 ∧
      collect_garbage 8 [3, 5] [[1], [2], [3]] [[1], [2]] = .ok [[3]]) ∧
    [2] ∉ [[3]] := by
  refine ⟨⟨by decide, rfl⟩, ?_⟩
  exact gc_soundness [[1]] [([1], [2])] 8 [3, 5] [[1], [2], [3]] [[1], [2]]
    [[3]] [2] (by decide)
    (by
      intro x h
      induction h with
      | root hx =>
          simp only [List.mem_singleton] at hx
          subst hx
          simp
      | child hp hpc ih =>
          simp only [List.mem_singleton, Prod.mk.injEq] at hpc
          rw [hpc.2]
          simp)
    (Reachable.child (p := [1]) (c := [2]) (Reachable.root (by simp)) (by simp))
    rfl

/-- C9 (empty-table edge case): on an empty Object table the computation of
the number of hash functions `k` divides by `num_objects = 0` and the
generator raises `ZeroDivisionError` before any object is examined or
yielded; with at least one row it runs to completion. -/
theorem collect_garbage_empty_table_division (m : Nat) (hashes : List Nat)
    (objTable reached : List (List Nat)) (hne : objTable ≠ []) :
    collect_garbage m hashes [] reached = .error .zeroDivisionError ∧
    ∃ out, collect_garbage m hashes objTable reached = .ok out := by
  constructor
  · rfl
  · simp only [collect_garbage, if_neg (fun h => hne (List.length_eq_zero.mp h))]
    exact ⟨_, rfl⟩

/-- Witness for C9 at a one-object table. -/
theorem collect_garbage_empty_table_division_witness :
    ([[0]] : List (List Nat)) ≠ [] ∧
    (collect_garbage 1 [] [] [] = .error .zeroDivisionError ∧
      ∃ out, collect_garbage 1 [] [[0]] [] = .ok out) :=
  ⟨by decide, collect_garbage_empty_table_division 1 [] [[0]] [] (by decide)⟩

/-! ### Scan lemmas -/

theorem lookupRow_map_preserving (t : List FSEntryRow) (g : FSEntryRow → FSEntryRow)
    (hid : ∀ r, (g r).id = r.id) (i : Nat) :
    lookupRow (t.map g) i = (lookupRow t i).map g := by
  unfold lookupRow
  rw [List.find?_map]
  have hp : ((fun r : FSEntryRow => r.id == i) ∘ g) = (fun r : FSEntryRow => r.id == i) := by
    funext r
    simp [Function.comp, hid]
  rw [hp]

theorem parentChain_map_preserving (t : List FSEntryRow) (g : FSEntryRow → FSEntryRow)
    (hid : ∀ r, (g r).id = r.id) (hpar : ∀ r, (g r).parent = r.parent) :
    ∀ fuel i, parentChain (t.map g) fuel i = parentChain t fuel i := by
  intro fuel
  induction fuel with
  | zero => intro i; rfl
  | succ n ih =>
      intro i
      unfold parentChain
      rw [lookupRow_map_preserving t g hid i]
      cases h : lookupRow t i with
      | none => rfl
      | some r =>
          simp only [Option.map_some']
          rw [hpar]
          cases r.parent with
          | none => rfl
          | some p =>
              dsimp only
              rw [ih]

theorem invalidate_id (t : List FSEntryRow) (i : Nat) (r : FSEntryRow) :
    ((fun r => if (parentChain t (t.length + 1) i).contains r.id
        then { r with obj := none } else r) r).id = r.id := by
  dsimp only
  split <;> rfl

theorem invalidate_parent (t : List FSEntryRow) (i : Nat) (r : FSEntryRow) :
    ((fun r => if (parentChain t (t.length + 1) i).contains r.id
        then { r with obj := none } else r) r).parent = r.parent := by
  dsimp only
  split <;> rfl

/-- After `invalidate`, every surviving row whose id lies on the ancestor
chain of `i` (computed on the updated table) has a null `obj`. -/
theorem invalidate_marks (t : List FSEntryRow) (i : Nat) (r : FSEntryRow)
    (hr : r ∈ invalidate t i)
    (hchain : r.id ∈ parentChain (invalidate t i) ((invalidate t i).length + 1) i) :
    r.obj = none := by
  have hlen : (invalidate t i).length = t.length := by simp [invalidate]
  rw [hlen] at hchain
  unfold invalidate at hr hchain
  rw [parentChain_map_preserving t _ (invalidate_id t i) (invalidate_parent t i)]
    at hchain
  obtain ⟨x, hx, hxr⟩ := List.mem_map.mp hr
  by_cases hc : ((parentChain t (t.length + 1) i).contains x.id) = true
  · rw [if_pos hc] at hxr
    rw [← hxr]
  · rw [if_neg hc] at hxr
    subst hxr
    exact absurd (List.elem_iff.mpr hchain) hc

/-- C8 (clean idempotence): scanning an entry whose `new` flag is clear and
whose stored stat triple matches `os.lstat` returns with the table
untouched: no field modified, no row created or deleted, `obj` untouched. -/
theorem scan_clean_idempotent (t : List FSEntryRow) (nid eid : Nat)
    (st : StatResult) (listdir : Except Unit (List String)) (e : FSEntryRow)
    (hfind : lookupRow t eid = some e)
    (hnew : e.new = false)
    (hcmp : compare_stat_info e st = true) :
    fsentry_scan t nid eid (some st) listdir = .ok t := by
  have hcmp' := hcmp
  simp only [compare_stat_info, Bool.and_eq_true, beq_iff_eq] at hcmp'
  have hmode : e.st_mode = some st.st_mode := hcmp'.1.1
  have hcond : (!e.new && compare_stat_info e st) = true := by
    rw [hnew, hcmp]
    rfl
  simp only [fsentry_scan, hfind, hmode, hcond, if_true, Bool.and_not_self]
  rfl

/-- Witness for C8: a clean regular-file entry is returned unchanged. -/
theorem scan_clean_idempotent_witness :
    lookupRow [cleanRow] 1 = some cleanRow ∧
    fsentry_scan [cleanRow] 2 1 (some cleanStat) (.ok []) = .ok [cleanRow] :=
  ⟨by decide, scan_clean_idempotent [cleanRow] 2 1 cleanStat (.ok []) cleanRow
    (by decide) (by decide) (by decide)⟩

theorem parentChain_head (t : List FSEntryRow) (fuel i : Nat) :
    i ∈ parentChain t (fuel + 1) i := by
  unfold parentChain
  exact List.mem_cons_self _ _

theorem mem_cascadeDelete (t : List FSEntryRow) (did : Nat) (r : FSEntryRow)
    (hr : r ∈ cascadeDelete t did) : r ∈ t ∧ r.id ≠ did := by
  unfold cascadeDelete at hr
  rw [List.mem_filter] at hr
  obtain ⟨h1, h2⟩ := hr
  refine ⟨h1, ?_⟩
  intro heq
  rw [Bool.not_eq_true'] at h2
  have : (parentChain t (t.length + 1) r.id).contains did = true := by
    rw [heq] at *
    exact List.elem_eq_true_of_mem (parentChain_head t t.length did)
  rw [this] at h2
  cases h2

/-- A row surviving the delete-old loop run against an empty listing was
already present and its id differs from every prior child's id. -/
theorem scanDeleteOld_nil_mem (children : List FSEntryRow) (t : List FSEntryRow)
    (r : FSEntryRow) (hr : r ∈ scanDeleteOld [] children t) :
    r ∈ t ∧ ∀ c ∈ children, r.id ≠ c.id := by
  induction children generalizing t with
  | nil =>
      exact ⟨hr, by simp⟩
  | cons c cs ih =>
      unfold scanDeleteOld at hr
      rw [List.foldl_cons] at hr
      have hred : (if ([] : List String).contains c.name then t
          else cascadeDelete t c.id) = cascadeDelete t c.id := rfl
      rw [hred] at hr
      obtain ⟨hmem, hcs⟩ := ih (cascadeDelete t c.id) hr
      obtain ⟨hmem', hne⟩ := mem_cascadeDelete t c.id r hmem
      refine ⟨hmem', ?_⟩
      intro c' hc'
      rcases List.mem_cons.mp hc' with rfl | hc''
      · exact hne
      · exact hcs c' hc''

/-- C5 (dirty propagation): after `FSEntry.scan` runs on an entry whose
stat info changed or whose `new` flag was set, every row of the resulting
table that lies on the recursive ancestor chain of the scanned entry (the
entry itself and every ancestor up to its root) has `obj = null`: the
single recursive ancestor update of `FSEntry.invalidate` establishes
invariant F5 for every entry the scan dirties. -/
theorem scan_dirty_propagation (t : List FSEntryRow) (nid eid : Nat)
    (st : StatResult) (listdir : Except Unit (List String)) (e : FSEntryRow)
    (t' : List FSEntryRow)
    (hfind : lookupRow t eid = some e)
    (hdirty : e.new = true ∨ compare_stat_info e st = false)
    (hout : fsentry_scan t nid eid (some st) listdir = .ok t') :
    ∀ r ∈ t', r.id ∈ parentChain t' (t'.length + 1) eid → r.obj = none := by
  have hcond : (!e.new && compare_stat_info e st) = false := by
    rcases hdirty with h | h
    · rw [h]
      rfl
    · rw [h]
      simp
  simp only [fsentry_scan, hfind, hcond, Bool.false_eq_true, if_false] at hout
  split at hout
  · split at hout
    · exact absurd hout (by simp)
    · simp only [Except.ok.injEq] at hout
      subst hout
      intro r hr hchain
      exact invalidate_marks _ eid r hr hchain
  · simp only [Except.ok.injEq] at hout
    subst hout
    intro r hr hchain
    exact invalidate_marks _ eid r hr hchain

/-- Witness for C5: scanning the changed child of a two-row tree nulls
`obj` on the child and on its root. -/
theorem scan_dirty_propagation_witness :
    (lookupRow [dirtyRootRow, dirtyChildRow] 2 = some dirtyChildRow ∧
      compare_stat_info dirtyChildRow changedStat = false ∧
      fsentry_scan [dirtyRootRow, dirtyChildRow] 3 2 (some changedStat)
        (.ok []) = .ok scanDirtyResult) ∧
    ∀ r ∈ scanDirtyResult,
      r.id ∈ parentChain scanDirtyResult (scanDirtyResult.length + 1) 2 →
        r.obj = none :=
  ⟨⟨by decide, by decide, by decide⟩,
    scan_dirty_propagation [dirtyRootRow, dirtyChildRow] 3 2 changedStat
      (.ok []) dirtyChildRow scanDirtyResult (by decide) (Or.inr (by decide))
      (by decide)⟩

/-- Counterexample to C3 as stated: scanning directory row 1 (two-row
table, recorded child row 2) while `os.listdir` raises `PermissionError`
leaves a table containing only the directory itself — the previously
recorded child does not remain in the `FSEntry` table. -/
theorem scan_permission_denied_counterexample :
    fsentry_scan [permDirRow, permChildRow] 3 1 (some permDirStat)
      (.error ()) = .ok permScanResult ∧
    ∀ r ∈ permScanResult, r.id ≠ 2 := by
  decide

/-- After `save` and `invalidate`, a table whose rows went through the
delete-old sweep against an empty listing has no row whose parent is the
swept entry (provided the saved row itself does not name itself as
parent). -/
theorem sweep_no_children (tbase : List FSEntryRow) (eid : Nat)
    (e' : FSEntryRow) (hself : e'.parent ≠ some eid) :
    ∀ r ∈ invalidate (saveRow
        (scanDeleteOld [] (tbase.filter (fun r => r.parent == some eid)) tbase)
        eid e') eid,
      r.parent ≠ some eid := by
  intro r hr
  unfold invalidate at hr
  obtain ⟨x, hx, hxr⟩ := List.mem_map.mp hr
  have hxpar : r.parent = x.parent := by
    rw [← hxr]
    exact invalidate_parent _ eid x
  rw [hxpar]
  unfold saveRow at hx
  obtain ⟨y, hy, hyx⟩ := List.mem_map.mp hx
  by_cases hid : (y.id == eid) = true
  · rw [if_pos hid] at hyx
    rw [← hyx]
    exact hself
  · rw [if_neg hid] at hyx
    subst hyx
    obtain ⟨hyt, hyids⟩ := scanDeleteOld_nil_mem _ _ y hy
    intro hpar
    exact hyids y (List.mem_filter.mpr ⟨hyt, by rw [hpar]; simp⟩) rfl

/-- C3 amended: when listing a directory during `FSEntry.scan` raises
permission-denied, the directory is treated as empty for this scan and
every previously recorded child of the directory is deleted by this scan
of the parent (afterwards no row has the scanned directory as parent); a
warning is logged. -/
theorem scan_permission_denied_empties_dir (t : List FSEntryRow)
    (nid eid : Nat) (st : StatResult) (e : FSEntryRow) (t' : List FSEntryRow)
    (hfind : lookupRow t eid = some e)
    (hdirty : e.new = true ∨ compare_stat_info e st = false)
    (hdir : S_ISDIR st.st_mode = true)
    (hself : e.parent ≠ some eid)
    (hout : fsentry_scan t nid eid (some st) (.error ()) = .ok t') :
    ∀ r ∈ t', r.parent ≠ some eid := by
  have hcond : (!e.new && compare_stat_info e st) = false := by
    rcases hdirty with h | h
    · rw [h]
      rfl
    · rw [h]
      simp
  cases hmo : e.st_mode with
  | none =>
      simp only [fsentry_scan, hfind, hmo, hcond, Bool.false_eq_true, if_false,
        hdir, if_true, List.filter_nil, scanCreateNew] at hout
      simp only [Except.ok.injEq] at hout
      subst hout
      exact sweep_no_children t eid _ hself
  | some mo =>
      simp only [fsentry_scan, hfind, hmo, hcond, Bool.false_eq_true, if_false,
        hdir, Bool.not_true, Bool.and_false, if_true, List.filter_nil,
        scanCreateNew] at hout
      simp only [Except.ok.injEq] at hout
      subst hout
      exact sweep_no_children t eid _ hself

/-- Witness for the amended C3 at the concrete two-row table. -/
theorem scan_permission_denied_empties_dir_witness :
    (lookupRow [permDirRow, permChildRow] 1 = some permDirRow ∧
      permDirRow.new = true ∧
      S_ISDIR permDirStat.st_mode = true ∧
      permDirRow.parent ≠ some 1 ∧
      fsentry_scan [permDirRow, permChildRow] 3 1 (some permDirStat)
        (.error ()) = .ok permScanResult) ∧
    ∀ r ∈ permScanResult, r.parent ≠ some 1 :=
  ⟨⟨by decide, by decide, by decide, by decide, by decide⟩,
    scan_permission_denied_empties_dir [permDirRow, permChildRow] 3 1
      permDirStat permDirRow permScanResult (by decide) (Or.inl (by decide))
      (by decide) (by decide) (by decide)⟩

/-! ### Backup-engine lemmas and theorems -/

/-- `backup_iterator` never reports a surviving entry with a null `obj`:
in every branch that keeps the entry, `obj` is assigned the object sent
back by the caller. -/
theorem backup_iterator_obj_some (push : List MsgVal → List Nat)
    (thr cs : Nat) (lstat : Option StatResult)
    (read : Except ReadErr (List Nat)) (e e' : FSEntryRow)
    (children : List FSEntryRow) (ys : List (List MsgVal × String))
    (h : backup_iterator push thr cs lstat read e children = .ok (some e', ys)) :
    e'.obj.isSome = true := by
  cases lstat with
  | none => simp [backup_iterator] at h
  | some st =>
      simp only [backup_iterator] at h
      by_cases hreg : S_ISREG st.st_mode = true
      · rw [if_pos hreg] at h
        cases read with
        | error err => simp at h
        | ok b =>
            dsimp only at h
            by_cases hsz : st.st_size < thr
            · rw [if_pos hsz] at h
              simp only [Except.ok.injEq, Prod.mk.injEq, Option.some.injEq] at h
              rw [← h.1]
              rfl
            · rw [if_neg hsz] at h
              simp only [Except.ok.injEq, Prod.mk.injEq, Option.some.injEq] at h
              rw [← h.1]
              rfl
      · rw [if_neg hreg] at h
        by_cases hdir : S_ISDIR st.st_mode = true
        · rw [if_pos hdir] at h
          by_cases hdep : (children.any fun c => c.obj == none) = true
          · rw [if_pos hdep] at h
            simp at h
          · rw [if_neg hdep] at h
            simp only [Except.ok.injEq, Prod.mk.injEq, Option.some.injEq] at h
            rw [← h.1]
            rfl
        · rw [if_neg hdir] at h
          simp at h

/-- C2 (exit contract): whenever `backup_entry` returns — for every entry
kind and branch (vanished entry; regular file, inlined or chunked,
including the file-disappeared and permission-denied read branches;
directory; other file types) — either the entry has been deleted from the
database or its `obj` has been set to a non-null object, and the
assertion at the end of `backup_entry` never fires. -/
theorem backup_entry_exit_contract (push : List MsgVal → List Nat)
    (thr cs : Nat) (lstat : Option StatResult)
    (read : Except ReadErr (List Nat)) (e : FSEntryRow)
    (children : List FSEntryRow) :
    backup_entry push thr cs lstat read e children ≠ .error .assertionError ∧
    ∀ st? ys,
      backup_entry push thr cs lstat read e children = .ok (st?, ys) →
        st? = none ∨ ∃ e', st? = some e' ∧ e'.obj.isSome = true := by
  constructor
  · intro hcontra
    unfold backup_entry at hcontra
    cases hit : backup_iterator push thr cs lstat read e children with
    | error err =>
        rw [hit] at hcontra
        cases err
        simp at hcontra
    | ok p =>
        obtain ⟨st?, ys⟩ := p
        rw [hit] at hcontra
        cases st? with
        | none => simp at hcontra
        | some e' =>
            have hobj := backup_iterator_obj_some push thr cs lstat read e e'
              children ys hit
            simp [hobj] at hcontra
  · intro st? ys h
    unfold backup_entry at h
    cases hit : backup_iterator push thr cs lstat read e children with
    | error err =>
        rw [hit] at h
        cases err
        simp at h
    | ok p =>
        obtain ⟨st0, ys0⟩ := p
        rw [hit] at h
        cases st0 with
        | none =>
            simp only [Except.ok.injEq, Prod.mk.injEq] at h
            exact Or.inl h.1.symm
        | some e' =>
            have hobj := backup_iterator_obj_some push thr cs lstat read e e'
              children ys0 hit
            dsimp only at h
            rw [hobj] at h
            simp only [if_true, Except.ok.injEq, Prod.mk.injEq] at h
            exact Or.inr ⟨e', h.1.symm, hobj⟩

/-- Witness for C2: a small regular file is backed up into an inlined
inode and the saved entry's `obj` is set. -/
theorem backup_entry_exit_contract_witness :
    backup_entry push0 2097152 1048576 (some cleanStat) (.ok [120]) cleanRow []
      ≠ .error .assertionError ∧
    (some { update_stat_info cleanRow cleanStat with obj := some [0] } = none ∨
      ∃ e', some { update_stat_info cleanRow cleanStat with obj := some [0] } =
          some e' ∧ e'.obj.isSome = true) :=
  ⟨(backup_entry_exit_contract push0 2097152 1048576 (some cleanStat)
      (.ok [120]) cleanRow []).1,
   (backup_entry_exit_contract push0 2097152 1048576 (some cleanStat)
      (.ok [120]) cleanRow []).2
      (some { update_stat_info cleanRow cleanStat with obj := some [0] })
      [(inodePayload cleanStat (.arr [.str "immediate", .bytes [120]]), "inode")]
      rfl⟩

theorem chunkList_map_fst (push : List MsgVal → List Nat) (cs : Nat)
    (b : List Nat) :
    (chunkList push cs b).map Prod.fst = (FixedChunker cs b).map Prod.fst := by
  simp [chunkList, Function.comp]

theorem fixedChunkerGo_offsets_head (cs fuel ofs : Nat) (b : List Nat) (y : Nat)
    (hy : y ∈ ((fixedChunkerGo cs fuel ofs b).map Prod.fst).head?) :
    y = ofs := by
  cases fuel with
  | zero => simp [fixedChunkerGo] at hy
  | succ n =>
      cases b with
      | nil => simp [fixedChunkerGo] at hy
      | cons x rest =>
          simp only [fixedChunkerGo, List.map_cons, List.head?_cons,
            Option.mem_def, Option.some.injEq] at hy
          exact hy.symm

/-- The offsets produced by the fixed-size chunker strictly ascend. -/
theorem fixedChunkerGo_offsets_ascending (cs : Nat) (hcs : 0 < cs) :
    ∀ fuel ofs b, List.Chain' (· < ·)
      ((fixedChunkerGo cs fuel ofs b).map Prod.fst) := by
  intro fuel
  induction fuel with
  | zero =>
      intro ofs b
      simp [fixedChunkerGo]
  | succ n ih =>
      intro ofs b
      cases b with
      | nil => simp [fixedChunkerGo]
      | cons x rest =>
          simp only [fixedChunkerGo, List.map_cons]
          rw [List.chain'_cons']
          refine ⟨?_, ih _ _⟩
          intro y hy
          have := fixedChunkerGo_offsets_head cs n (ofs + cs) _ y hy
          omega

/-- C7 (inline threshold): for every regular file, its contents are
embedded in the inode payload as `("immediate", bytes)` iff the stat size
is strictly below `inline_threshold` (whose default is `2^21 = 2097152`
bytes); otherwise the fixed-size chunker's blob objects are yielded before
the inode, whose payload carries `("chunklist", [(offset, objid), …])`
with strictly ascending offsets. -/
theorem backup_inline_threshold (push : List MsgVal → List Nat) (thr cs : Nat)
    (st : StatResult) (b : List Nat) (e : FSEntryRow)
    (children : List FSEntryRow)
    (hreg : S_ISREG st.st_mode = true) (hcs : 0 < cs) :
    inline_threshold_default = 2097152 ∧
    (st.st_size < thr →
      backup_iterator push thr cs (some st) (.ok b) e children =
        .ok (some { update_stat_info e st with
              obj := some (push (inodePayload st
                (.arr [.str "immediate", .bytes b]))) },
          [(inodePayload st (.arr [.str "immediate", .bytes b]), "inode")])) ∧
    (¬ st.st_size < thr →
      backup_iterator push thr cs (some st) (.ok b) e children =
        .ok (some { update_stat_info e st with
              obj := some (push (chunkedInodePayload push cs st b)) },
          (FixedChunker cs b).map (fun pc => (blobPayload pc.2, "blob")) ++
            [(chunkedInodePayload push cs st b, "inode")]) ∧
      List.Chain' (· < ·) ((chunkList push cs b).map Prod.fst)) := by
  refine ⟨rfl, ?_, ?_⟩
  · intro hsz
    simp only [backup_iterator]
    rw [if_pos hreg, if_pos hsz]
  · intro hsz
    refine ⟨?_, ?_⟩
    · simp only [backup_iterator]
      rw [if_pos hreg, if_neg hsz]
    · rw [chunkList_map_fst]
      exact fixedChunkerGo_offsets_ascending cs hcs _ _ _

/-- Witness for C7: a 5-byte file with threshold 3 and chunk size 2 is
chunked, blob yields precede the inode, and the offsets ascend. -/
theorem backup_inline_threshold_witness :
    ¬ chunkStat.st_size < 3 ∧
    (backup_iterator push0 3 2 (some chunkStat) (.ok [1, 2, 3, 4, 5])
        cleanRow [] =
      .ok (some { update_stat_info cleanRow chunkStat with
            obj := some (push0
              (chunkedInodePayload push0 2 chunkStat [1, 2, 3, 4, 5])) },
        (FixedChunker 2 [1, 2, 3, 4, 5]).map
            (fun pc => (blobPayload pc.2, "blob")) ++
          [(chunkedInodePayload push0 2 chunkStat [1, 2, 3, 4, 5], "inode")]) ∧
      List.Chain' (· < ·)
        ((chunkList push0 2 [1, 2, 3, 4, 5]).map Prod.fst)) :=
  ⟨by decide,
    (backup_inline_threshold push0 3 2 chunkStat [1, 2, 3, 4, 5] cleanRow []
      (by decide) (by decide)).2.2 (by decide)⟩

/-- C4 fails on the code: backing up a 1-byte regular file stores its
contents as `("immediate", bytes)` in the inode payload, and
`calculate_children` applied to that stored payload iterates over the
bytes and subscripts each resulting int (`c[1]` in
`[c[1] for c in next(payload_items)[1]]`), raising `TypeError` instead of
returning the empty child sequence the claim requires. -/
theorem calculate_children_immediate_typeerror :
    backup_iterator push0 2097152 1048576 (some cleanStat) (.ok [120])
      cleanRow [] =
      .ok (some { update_stat_info cleanRow cleanStat with obj := some [0] },
        [(inodePayload cleanStat (.arr [.str "immediate", .bytes [120]]),
          "inode")]) ∧
    calculate_children
        (inodePayload cleanStat (.arr [.str "immediate", .bytes [120]])) =
      .error .typeError :=
  ⟨rfl, rfl⟩

/-- C6 (backup precondition): with any `new = true` entry outstanding,
`backup` raises the hard error "You need to run a scan first" immediately,
before backing up any entry or creating any Snapshot; with no new entries
the check does not fire — the run can never end with that error. -/
theorem backup_scan_precondition (push : List MsgVal → List Nat)
    (thr cs : Nat) (fs : FsView) (fuel : Nat) (t : List FSEntryRow) :
    ((∃ e ∈ t, e.new = true) →
      backup push thr cs fs fuel t = .error .scanNotRun) ∧
    ((∀ e ∈ t, e.new = false) →
      backup push thr cs fs fuel t ≠ .error .scanNotRun) := by
  constructor
  · intro ⟨e, he, hnew⟩
    unfold backup
    rw [if_pos (List.any_eq_true.mpr ⟨e, he, hnew⟩)]
  · intro hall
    unfold backup
    rw [if_neg (fun h => by
      obtain ⟨e, he, hnew⟩ := List.any_eq_true.mp h
      rw [hall e he] at hnew
      cases hnew)]
    split
    · simp
    · split <;> simp

/-- Witness for C6: a table with a `new` entry aborts; a clean backed-up
table does not hit the precondition error. -/
theorem backup_scan_precondition_witness :
    backup push0 2097152 1048576 trivialFs 3 [permDirRow] =
      .error .scanNotRun ∧
    backup push0 2097152 1048576 trivialFs 3 [cleanRow] ≠
      .error .scanNotRun :=
  ⟨(backup_scan_precondition push0 2097152 1048576 trivialFs 3 [permDirRow]).1
      ⟨permDirRow, by decide, by decide⟩,
   (backup_scan_precondition push0 2097152 1048576 trivialFs 3 [cleanRow]).2
      (by decide)⟩

/-- C10: an Object that is the root of an existing Snapshot cannot be
deleted — `Snapshot.root` is declared `on_delete=PROTECT` rather than
cascade, so the metadata store refuses the delete and the row remains. -/
theorem snapshot_root_protected (db : GcDb) (oid : List Nat)
    (h : oid ∈ db.snapshotRoots) :
    delete_object db oid = .error .protectedError := by
  unfold delete_object
  rw [if_pos (List.any_eq_true.mpr ⟨oid, h, by simp⟩)]

/-- Witness for C10: deleting the snapshot root `[5]` is refused. -/
theorem snapshot_root_protected_witness :
    [5] ∈ (GcDb.mk [[5], [6]] [([5], [6])] [[5]]).snapshotRoots ∧
    delete_object (GcDb.mk [[5], [6]] [([5], [6])] [[5]]) [5] =
      .error .protectedError :=
  ⟨by decide, snapshot_root_protected (GcDb.mk [[5], [6]] [([5], [6])] [[5]])
    [5] (by decide)⟩

end Backathon
